import Mathlib

/-!
Verification development for the skills middleware of this repository
(`skills/middleware.py`).

Shallow embedding conventions:
* Python `None`-able strings become `Option String`; Python string truthiness
  (`if request.system_prompt:`) is modelled explicitly (`none` and `some ""`
  are both falsy).
* `state.get("skills_metadata", [])` is modelled by an `Option (List SkillMetadata)`
  field on the request together with `Option.getD []`.
* Python in-place mutation of `response.result[0].tool_calls` becomes a
  functional update of the head of the `result` list.
* An unhandled Python exception (e.g. `IndexError` from `response.result[0]`
  when `result` is empty) is modelled by returning `none` from an
  `Option`-valued function.
* Instance attributes (`self.call_count`, `self.DONE_WRITE_FILE`) are carried
  in a middleware-state structure that each call consumes and returns.
* Logging statements are pure observability and are not modelled.
-/

/-- The `source` tier of a skill record.  In `skills.load` (whose
`SkillMetadata` TypedDict is consumed by the middleware), `source` is
`"user"` or `"project"`. -/
inductive Source where
  | user
  | project
deriving DecidableEq, BEq, Repr

/-- `SkillMetadata` from `skills.load`: name, description, resolved path and
source tier of one skill record. -/
structure SkillMetadata where
  name : String
  description : String
  path : String
  source : Source
deriving DecidableEq, Repr

/-- The configuration and instance state of a `SkillsMiddleware` object, as
set up by `SkillsMiddleware.__init__`.  `user_skills_display` is derived from
`assistant_id` below, as in the constructor. -/
structure SkillsMiddleware where
  skills_dir : String
  assistant_id : String
  project_skills_dir : Option String
  agent_name : String
  call_count : Nat
deriving DecidableEq, Repr

/-- `self.user_skills_display = f"~/.deepagents/{assistant_id}/skills"`. -/
def SkillsMiddleware.user_skills_display (m : SkillsMiddleware) : String :=
  "~/.deepagents/" ++ m.assistant_id ++ "/skills"

/-- The model request as seen by `SkillsMiddleware.wrap_model_call`:
an optional system prompt, the `skills_metadata` entry of the session state
(absent key = `none`), and the remaining request payload (messages), which the
middleware never touches. -/
structure ModelRequest where
  system_prompt : Option String
  skills_metadata : Option (List SkillMetadata)
  messages : List String
deriving DecidableEq, Repr

/-- `SkillsMiddleware._format_skills_locations`. -/
def SkillsMiddleware.format_skills_locations (m : SkillsMiddleware) : String :=
  let locations := ["**User Skills**: `" ++ m.user_skills_display ++ "`"]
  let locations :=
    match m.project_skills_dir with
    | some d => locations ++ ["**Project Skills**: `" ++ d ++ "` (overrides user skills)"]
    | none => locations
  String.intercalate "\n" locations

/-- The two lines `_format_skills_list` emits per skill entry. -/
def skillEntryLines (s : SkillMetadata) : List String :=
  ["- **" ++ s.name ++ "**: " ++ s.description,
   "  → Read `" ++ s.path ++ "` for full instructions"]

/-- `SkillsMiddleware._format_skills_list`. -/
def SkillsMiddleware.format_skills_list (m : SkillsMiddleware)
    (skills : List SkillMetadata) : String :=
  if skills.isEmpty then
    let locations := [m.user_skills_display ++ "/"]
    let locations :=
      match m.project_skills_dir with
      | some d => locations ++ [d ++ "/"]
      | none => locations
    "(No skills available yet. You can create skills in "
      ++ String.intercalate " or " locations ++ ")"
  else
    let user_skills := skills.filter (fun s => s.source == Source.user)
    let project_skills := skills.filter (fun s => s.source == Source.project)
    let userLines :=
      if user_skills.isEmpty then []
      else "**User Skills:**" :: (user_skills.map skillEntryLines).flatten ++ [""]
    let projectLines :=
      if project_skills.isEmpty then []
      else "**Project Skills:**" :: (project_skills.map skillEntryLines).flatten
    String.intercalate "\n" (userLines ++ projectLines)

/-- The literal text of `SKILLS_SYSTEM_PROMPT` before the
`{skills_locations}` placeholder. -/
def SKILLS_SYSTEM_PROMPT_pre : String :=
  "\n\n## Skills System\n\nYou have access to a skills library that provides specialized capabilities and domain knowledge.\n\n"

/-- The literal text of `SKILLS_SYSTEM_PROMPT` between the
`{skills_locations}` and `{skills_list}` placeholders. -/
def SKILLS_SYSTEM_PROMPT_mid : String :=
  "\n\n**Available Skills:**\n\n"

/-- The literal text of `SKILLS_SYSTEM_PROMPT` after the `{skills_list}`
placeholder. -/
def SKILLS_SYSTEM_PROMPT_post : String :=
  "\n\n**How to Use Skills (Progressive Disclosure):**\n\nSkills follow a **progressive disclosure** pattern - you know they exist (name + description above), but you only read the full instructions when needed:\n\n1. **Recognize when a skill applies**: Check if the user's task matches any skill's description\n2. **Read the skill's full instructions**: The skill list above shows the exact path to use with read_file\n3. **Follow the skill's instructions**: SKILL.md contains step-by-step workflows, best practices, and examples\n4. **Access supporting files**: Skills may include Python scripts, configs, or reference docs - use absolute paths\n\n**When to Use Skills:**\n- When the user's request matches a skill's domain (e.g., \"research X\" → web-research skill)\n- When you need specialized knowledge or structured workflows\n- When a skill provides proven patterns for complex tasks\n\n**Skills are Self-Documenting:**\n- Each SKILL.md tells you exactly what the skill does and how to use it\n- The skill list above shows the full path for each skill's SKILL.md file\n\n**Executing Skill Scripts:**\nSkills may contain Python scripts or other executable files. Always use absolute paths from the skill list.\n\n**Example Workflow:**\n\nUser: \"Can you research the latest developments in quantum computing?\"\n\n1. Check available skills above → See \"web-research\" skill with its full path\n2. Read the skill using the path shown in the list\n3. Follow the skill's research workflow (search → organize → synthesize)\n4. Use any helper scripts with absolute paths\n\nRemember: Skills are tools to make you more capable and consistent. When in doubt, check if a skill exists for the task!\n"

/-- `SKILLS_SYSTEM_PROMPT.format(skills_locations=..., skills_list=...)`:
`str.format` splices the two computed strings into the template literally. -/
def SkillsMiddleware.skills_section (m : SkillsMiddleware)
    (skills : List SkillMetadata) : String :=
  SKILLS_SYSTEM_PROMPT_pre ++ m.format_skills_locations
    ++ SKILLS_SYSTEM_PROMPT_mid ++ m.format_skills_list skills
    ++ SKILLS_SYSTEM_PROMPT_post

/-- `SkillsMiddleware.wrap_model_call`: reads `skills_metadata` from session
state (missing key defaults to `[]`), renders the skills section, prefixes an
existing truthy system prompt with a blank-line separator, and hands the
overridden request to the handler; the handler's response is returned
unchanged, so we return the updated instance state together with the request
passed to the handler. -/
def SkillsMiddleware.wrap_model_call (m : SkillsMiddleware)
    (request : ModelRequest) : SkillsMiddleware × ModelRequest :=
  let skills_metadata := request.skills_metadata.getD []
  let skills_section := m.skills_section skills_metadata
  let system_prompt :=
    match request.system_prompt with
    | some p => if p = "" then skills_section else p ++ "\n\n" ++ skills_section
    | none => skills_section
  ({ m with call_count := m.call_count + 1 },
   { request with system_prompt := some system_prompt })

/-- One proposed tool call of a model response.  Python tool calls are dicts;
`tc.get("name")` is `none` when the key is absent. -/
structure ToolCall where
  name : Option String
deriving DecidableEq, Repr

/-- One message of a model response's `result` list: textual content plus the
list of proposed tool calls. -/
structure Message where
  content : String
  tool_calls : List ToolCall
deriving DecidableEq, Repr

/-- A model response as inspected by `NoSkillsMiddleware.wrap_model_call`:
the `result` list of messages. -/
structure ModelResponse where
  result : List Message
deriving DecidableEq, Repr

/-- The instance state of a `NoSkillsMiddleware` object, as set up by
`NoSkillsMiddleware.__init__` (which sets `DONE_WRITE_FILE = False`,
`call_count = 0`). -/
structure NoSkillsMiddleware where
  agent_name : String
  call_count : Nat
  DONE_WRITE_FILE : Bool
deriving DecidableEq, Repr

/-- Clearing the head message's tool calls, the effect of
`response.result[0].tool_calls = []` on a response with a nonempty `result`. -/
def clearFirstToolCalls (resp : ModelResponse) : ModelResponse :=
  match resp.result with
  | [] => resp
  | first :: rest => ⟨{ first with tool_calls := [] } :: rest⟩

/-- `NoSkillsMiddleware.wrap_model_call`: increments `call_count`, calls the
handler (the response is the handler's), then
* if `DONE_WRITE_FILE`, sets `response.result[0].tool_calls = []`;
* if `response.result[0].tool_calls` is truthy and its first element's
  `name` is `"write_file"`, sets `DONE_WRITE_FILE = True`.
Both accesses index `result[0]`; with an empty `result` list the Python code
raises `IndexError`, modelled by `none`. -/
def NoSkillsMiddleware.wrap_model_call (self : NoSkillsMiddleware)
    (response : ModelResponse) : Option (NoSkillsMiddleware × ModelResponse) :=
  let self1 := { self with call_count := self.call_count + 1 }
  match response.result with
  | [] => none
  | first :: rest =>
    let first1 := if self1.DONE_WRITE_FILE then { first with tool_calls := [] } else first
    let self2 :=
      match first1.tool_calls with
      | [] => self1
      | tc :: _ =>
        if tc.name = some "write_file" then { self1 with DONE_WRITE_FILE := true } else self1
    some (self2, ⟨first1 :: rest⟩)

/-- Whether a response would trigger the `OPEN → CLOSED` transition: its
first `result` message's first proposed tool call is named `write_file`. -/
def triggersTerminal (resp : ModelResponse) : Bool :=
  match resp.result with
  | [] => false
  | first :: _ =>
    match first.tool_calls with
    | [] => false
    | tc :: _ => tc.name == some "write_file"

/-- Processing a sequence of model responses through one
`NoSkillsMiddleware` instance, threading the instance state; records, per
turn, the `DONE_WRITE_FILE` flag after the turn and the returned response.
`none` if any turn raises. -/
def NoSkillsMiddleware.run (self : NoSkillsMiddleware) :
    List ModelResponse → Option (List (Bool × ModelResponse))
  | [] => some []
  | r :: rs =>
    match self.wrap_model_call r with
    | none => none
    | some (self1, r1) =>
      match self1.run rs with
      | none => none
      | some rest => some ((self1.DONE_WRITE_FILE, r1) :: rest)

/-- Modelled from the spec: the merge step of the Skill Catalog Builder
(`skills.load.list_skills`, whose source file is not in the repository
snapshot).  The spec says: start from user-tier records; for each
project-tier record whose `name` matches an existing user-tier record,
replace that record in place (keep the original position) and mark
`source=project`; project-tier records with no name collision are appended
after all user-tier records. -/
def mergeCatalogs (userRecs projRecs : List SkillMetadata) : List SkillMetadata :=
  let replaced := userRecs.map (fun u =>
    match projRecs.find? (fun p => p.name == u.name) with
    | some p => { p with source := Source.project }
    | none => u)
  let appended := projRecs.filter (fun p => userRecs.all (fun u => !(u.name == p.name)))
  replaced ++ appended.map (fun p => { p with source := Source.project })

/-- The rendering rule restated from the spec's own words, to be compared
with `SkillsMiddleware.format_skills_list`: user-tier and project-tier
entries in two separate labeled groups, each entry showing `name`,
`description` and the absolute path; user group first, project group second;
entries within a group preserve catalog order. -/
def renderSkillsListSpec (skills : List SkillMetadata) : String :=
  let parts := skills.partition (fun s => s.source == Source.user)
  let userGroup :=
    if parts.1 = [] then []
    else "**User Skills:**" :: (parts.1.map skillEntryLines).flatten ++ [""]
  let projectGroup :=
    if parts.2 = [] then []
    else "**Project Skills:**" :: (parts.2.map skillEntryLines).flatten
  String.intercalate "\n" (userGroup ++ projectGroup)

/-! ## Helper lemmas -/

/-- In the `OPEN` state a non-triggering response passes through unmodified. -/
theorem wrap_open_no_trigger (self : NoSkillsMiddleware) (resp : ModelResponse)
    (hopen : self.DONE_WRITE_FILE = false) (hwf : resp.result ≠ [])
    (htrig : triggersTerminal resp = false) :
    self.wrap_model_call resp =
      some ({ self with call_count := self.call_count + 1 }, resp) := by
  obtain ⟨result⟩ := resp
  cases result with
  | nil => simp at hwf
  | cons first rest =>
    simp only [triggersTerminal] at htrig
    simp only [NoSkillsMiddleware.wrap_model_call, hopen, if_false]
    cases h : first.tool_calls with
    | nil => simp [h]
    | cons tc tcs =>
      simp only [h] at htrig
      have htrig' : tc.name ≠ some "write_file" := by simpa using htrig
      simp [h, htrig']

/-- In the `OPEN` state the triggering response itself passes through
unmodified and flips the flag. -/
theorem wrap_open_trigger (self : NoSkillsMiddleware) (resp : ModelResponse)
    (hopen : self.DONE_WRITE_FILE = false)
    (htrig : triggersTerminal resp = true) :
    self.wrap_model_call resp =
      some ({ self with call_count := self.call_count + 1, DONE_WRITE_FILE := true },
            resp) := by
  obtain ⟨result⟩ := resp
  cases result with
  | nil => simp [triggersTerminal] at htrig
  | cons first rest =>
    simp only [triggersTerminal] at htrig
    simp only [NoSkillsMiddleware.wrap_model_call, hopen, if_false]
    cases h : first.tool_calls with
    | nil => simp [h] at htrig
    | cons tc tcs =>
      simp only [h] at htrig
      have htrig' : tc.name = some "write_file" := by simpa using htrig
      simp [h, htrig']

/-- In the `CLOSED` state one call clears the head message's tool calls and
keeps the flag set. -/
theorem wrap_closed (self : NoSkillsMiddleware) (resp : ModelResponse)
    (hclosed : self.DONE_WRITE_FILE = true) (hwf : resp.result ≠ []) :
    self.wrap_model_call resp =
      some ({ self with call_count := self.call_count + 1 },
            clearFirstToolCalls resp) := by
  obtain ⟨result⟩ := resp
  cases result with
  | nil => simp at hwf
  | cons first rest =>
    simp [NoSkillsMiddleware.wrap_model_call, hclosed, clearFirstToolCalls]

/-- A whole run in the `CLOSED` state clears every response's head tool
calls. -/
theorem run_closed (self : NoSkillsMiddleware) (hclosed : self.DONE_WRITE_FILE = true)
    (rs : List ModelResponse) (hwf : ∀ r ∈ rs, r.result ≠ []) :
    self.run rs = some (rs.map fun r => (true, clearFirstToolCalls r)) := by
  induction rs generalizing self with
  | nil => simp [NoSkillsMiddleware.run]
  | cons r rest ih =>
    have hr : r.result ≠ [] := hwf r (List.mem_cons_self r rest)
    rw [NoSkillsMiddleware.run, wrap_closed self r hclosed hr]
    dsimp only
    rw [ih { self with call_count := self.call_count + 1 } hclosed
        (fun x hx => hwf x (List.mem_cons_of_mem r hx))]
    simp [hclosed]

/-- `String.intercalate` on a one-element list. -/
theorem intercalate_singleton (s a : String) : String.intercalate s [a] = a := by
  simp [String.intercalate, String.intercalate.go]

/-- `String.intercalate` on a two-element list. -/
theorem intercalate_pair (s a b : String) : String.intercalate s [a, b] = a ++ s ++ b := by
  simp [String.intercalate, String.intercalate.go]

/-- `find?` returns the sole element a singleton `filter` keeps. -/
theorem find?_eq_of_filter_eq_singleton {α : Type} (p : α → Bool) (l : List α) (x : α)
    (h : l.filter p = [x]) : l.find? p = some x := by
  induction l with
  | nil => simp at h
  | cons a as ih =>
    by_cases hpa : p a = true
    · rw [List.filter_cons_of_pos hpa] at h
      obtain ⟨h1, h2⟩ := List.cons.inj h
      subst h1
      rw [List.find?_cons_of_pos _ hpa]
    · rw [List.filter_cons_of_neg hpa] at h
      rw [List.find?_cons_of_neg _ hpa]
      exact ih h

/-- The sole element a singleton `filter` keeps is a member satisfying the
predicate. -/
theorem mem_of_filter_eq_singleton {α : Type} {p : α → Bool} {l : List α} {x : α}
    (h : l.filter p = [x]) : x ∈ l ∧ p x = true := by
  have hx : x ∈ l.filter p := by rw [h]; exact List.mem_singleton_self x
  exact ⟨(List.mem_filter.mp hx).1, (List.mem_filter.mp hx).2⟩

/-! ## Claims -/

/-- Claim C1: for a sequence of model responses processed by one
`NoSkillsMiddleware` instance starting in the `OPEN` state, if response `k`
is the first whose first proposed tool call is named `write_file`, then
every turn before `k` and turn `k` itself pass through unmodified, every
turn after `k` has its tool-call list forced empty, and the recorded flag
trace shows the `OPEN → CLOSED` transition happening exactly at turn `k` and
never being reversed. -/
theorem noSkills_gating_sequence (rs : List ModelResponse) (self : NoSkillsMiddleware) (k : Nat)
    (hopen : self.DONE_WRITE_FILE = false)
    (hk : k < rs.length)
    (hwf : ∀ r ∈ rs, r.result ≠ [])
    (hbefore : ∀ r ∈ rs.take k, triggersTerminal r = false)
    (htrig : triggersTerminal (rs.get ⟨k, hk⟩) = true) :
    ∃ out, self.run rs = some out ∧
      ∀ i, out[i]? = (rs[i]?).map
        (fun r => (decide (k ≤ i), if i ≤ k then r else clearFirstToolCalls r)) := by
  induction rs generalizing self k with
  | nil => exact absurd hk (by simp)
  | cons r rest ih =>
    cases k with
    | zero =>
      have htr : triggersTerminal r = true := htrig
      rw [NoSkillsMiddleware.run, wrap_open_trigger self r hopen htr]
      dsimp only
      rw [run_closed _ rfl rest (fun x hx => hwf x (List.mem_cons_of_mem r hx))]
      refine ⟨_, rfl, ?_⟩
      intro i
      cases i with
      | zero => simp
      | succ j =>
        simp [Nat.not_succ_le_zero]
    | succ k' =>
      have hr0 : triggersTerminal r = false := hbefore r (by simp)
      rw [NoSkillsMiddleware.run, wrap_open_no_trigger self r hopen (hwf r (by simp)) hr0]
      dsimp only
      have hk' : k' < rest.length := by simpa using hk
      have htrig' : triggersTerminal (rest.get ⟨k', hk'⟩) = true := by
        simpa using htrig
      obtain ⟨out', hrun', hout'⟩ :=
        ih { self with call_count := self.call_count + 1 } k' hopen hk'
          (fun x hx => hwf x (List.mem_cons_of_mem r hx))
          (fun x hx => hbefore x (by simpa using List.mem_cons_of_mem r hx))
          htrig'
      rw [hrun']
      refine ⟨_, rfl, ?_⟩
      intro i
      cases i with
      | zero => simp [hopen]
      | succ j =>
        have := hout' j
        simpa [Nat.succ_le_succ_iff] using this

/-- Witness for C1: three responses, the second (index 1) triggering; the
third is returned with an emptied tool-call list. -/
theorem noSkills_gating_sequence_witness :
    ∃ out, NoSkillsMiddleware.run ⟨"extractor", 0, false⟩
        [⟨[⟨"a", [⟨some "read_file"⟩]⟩]⟩,
         ⟨[⟨"b", [⟨some "write_file"⟩]⟩]⟩,
         ⟨[⟨"c", [⟨some "read_file"⟩]⟩]⟩] = some out ∧
      ∀ i, out[i]? =
        (([⟨[⟨"a", [⟨some "read_file"⟩]⟩]⟩,
           ⟨[⟨"b", [⟨some "write_file"⟩]⟩]⟩,
           ⟨[⟨"c", [⟨some "read_file"⟩]⟩]⟩] : List ModelResponse)[i]?).map
          (fun r => (decide (1 ≤ i), if i ≤ 1 then r else clearFirstToolCalls r)) :=
  noSkills_gating_sequence _ _ 1 rfl (by decide) (by decide) (by decide) (by decide)

/-- Claim C2 (spec-modelled, `skills/load.py` is not in the snapshot): for a
name present in exactly one record of each tier, the merged catalog keeps
exactly one record with that name, carrying the project-tier data tagged
`source=project`, at every position where a user-tier record with that name
stood; project records colliding with no user name land at positions past
all the user records. -/
theorem merge_project_overrides (userRecs projRecs : List SkillMetadata) (n : String)
    (u p : SkillMetadata)
    (hu : userRecs.filter (fun r => r.name == n) = [u])
    (hp : projRecs.filter (fun r => r.name == n) = [p]) :
    (mergeCatalogs userRecs projRecs).filter (fun r => r.name == n)
        = [{ p with source := Source.project }]
    ∧ (∀ i (hi : i < userRecs.length), (userRecs.get ⟨i, hi⟩).name = n →
        (mergeCatalogs userRecs projRecs)[i]? = some { p with source := Source.project })
    ∧ ∀ q ∈ projRecs, (∀ r ∈ userRecs, r.name ≠ q.name) →
        ∃ j, userRecs.length ≤ j ∧
          (mergeCatalogs userRecs projRecs)[j]? = some { q with source := Source.project } := by
  have hmerge : mergeCatalogs userRecs projRecs
      = userRecs.map (fun w =>
          match projRecs.find? (fun q => q.name == w.name) with
          | some q => { q with source := Source.project }
          | none => w)
        ++ (projRecs.filter (fun q => userRecs.all (fun r => !(r.name == q.name)))).map
            (fun q => { q with source := Source.project }) := rfl
  have hname : ∀ w : SkillMetadata,
      ((match projRecs.find? (fun q => q.name == w.name) with
        | some q => { q with source := Source.project }
        | none => w) : SkillMetadata).name = w.name := by
    intro w
    cases hf : projRecs.find? (fun q => q.name == w.name) with
    | none => rfl
    | some q =>
      have := List.find?_some hf
      simpa using this
  have humem : u ∈ userRecs ∧ u.name = n := by
    obtain ⟨h1, h2⟩ := mem_of_filter_eq_singleton hu
    exact ⟨h1, by simpa using h2⟩
  have hfind : ∀ w : SkillMetadata, w.name = n →
      projRecs.find? (fun q => q.name == w.name) = some p := by
    intro w hw
    rw [hw]
    exact find?_eq_of_filter_eq_singleton _ _ _ hp
  refine ⟨?_, ?_, ?_⟩
  · rw [hmerge, List.filter_append]
    have hrepl : (userRecs.map (fun w =>
        match projRecs.find? (fun q => q.name == w.name) with
        | some q => { q with source := Source.project }
        | none => w)).filter (fun r => r.name == n) = [{ p with source := Source.project }] := by
      rw [List.filter_map]
      have hcong : userRecs.filter ((fun r => r.name == n) ∘ (fun w =>
          match projRecs.find? (fun q => q.name == w.name) with
          | some q => { q with source := Source.project }
          | none => w)) = userRecs.filter (fun r => r.name == n) := by
        apply List.filter_congr
        intro a _
        simp [Function.comp, hname a]
      rw [hcong, hu]
      simp [hfind u humem.2]
    have happ : ((projRecs.filter (fun q => userRecs.all (fun r => !(r.name == q.name)))).map
        (fun q => { q with source := Source.project })).filter (fun r => r.name == n) = [] := by
      rw [List.filter_eq_nil_iff]
      intro a ha
      obtain ⟨q, hqmem, rfl⟩ := List.mem_map.mp ha
      obtain ⟨hqproj, hall⟩ := List.mem_filter.mp hqmem
      intro hcontra
      have hqn : q.name = n := by simpa using hcontra
      have := List.all_eq_true.mp hall u humem.1
      rw [humem.2, hqn] at this
      simp at this
    rw [hrepl, happ]
    simp
  · intro i hi hgname
    rw [hmerge]
    rw [List.getElem?_append, if_pos (by simpa using hi)]
    rw [List.getElem?_map, List.getElem?_eq_getElem hi]
    have hgi : userRecs[i] = userRecs.get ⟨i, hi⟩ := rfl
    rw [Option.map_some', hgi, hfind _ hgname]
  · intro q hq hnocoll
    have hqapp : q ∈ projRecs.filter (fun q => userRecs.all (fun r => !(r.name == q.name))) := by
      refine List.mem_filter.mpr ⟨hq, List.all_eq_true.mpr ?_⟩
      intro r hr
      simpa using hnocoll r hr
    have hmm : ({ q with source := Source.project } : SkillMetadata)
        ∈ (projRecs.filter (fun q => userRecs.all (fun r => !(r.name == q.name)))).map
            (fun q => { q with source := Source.project }) :=
      List.mem_map.mpr ⟨q, hqapp, rfl⟩
    obtain ⟨j0, hj0⟩ := List.getElem?_of_mem hmm
    refine ⟨userRecs.length + j0, Nat.le_add_right _ _, ?_⟩
    rw [hmerge, List.getElem?_append_right (by simp)]
    simpa using hj0

/-- Witness for C2: the spec's concrete scenario — user tier `{A}`, project
tier `{A, B}`. -/
theorem merge_project_overrides_witness :
    (mergeCatalogs
        [⟨"A", "desc A", "/u/A", Source.user⟩]
        [⟨"A", "desc A2", "/p/A", Source.project⟩,
         ⟨"B", "desc B", "/p/B", Source.project⟩]).filter (fun r => r.name == "A")
        = [{ (⟨"A", "desc A2", "/p/A", Source.project⟩ : SkillMetadata) with
              source := Source.project }]
    ∧ (∀ i (hi : i < ([⟨"A", "desc A", "/u/A", Source.user⟩] : List SkillMetadata).length),
        (([⟨"A", "desc A", "/u/A", Source.user⟩] : List SkillMetadata).get ⟨i, hi⟩).name = "A" →
        (mergeCatalogs
          [⟨"A", "desc A", "/u/A", Source.user⟩]
          [⟨"A", "desc A2", "/p/A", Source.project⟩,
           ⟨"B", "desc B", "/p/B", Source.project⟩])[i]?
          = some { (⟨"A", "desc A2", "/p/A", Source.project⟩ : SkillMetadata) with
              source := Source.project })
    ∧ ∀ q ∈ [(⟨"A", "desc A2", "/p/A", Source.project⟩ : SkillMetadata),
             ⟨"B", "desc B", "/p/B", Source.project⟩],
        (∀ r ∈ [(⟨"A", "desc A", "/u/A", Source.user⟩ : SkillMetadata)], r.name ≠ q.name) →
        ∃ j, ([(⟨"A", "desc A", "/u/A", Source.user⟩ : SkillMetadata)] : List SkillMetadata).length ≤ j ∧
          (mergeCatalogs
            [⟨"A", "desc A", "/u/A", Source.user⟩]
            [⟨"A", "desc A2", "/p/A", Source.project⟩,
             ⟨"B", "desc B", "/p/B", Source.project⟩])[j]?
            = some { q with source := Source.project } :=
  merge_project_overrides _ _ "A"
    ⟨"A", "desc A", "/u/A", Source.user⟩
    ⟨"A", "desc A2", "/p/A", Source.project⟩ (by decide) (by decide)

/-- Claim C3: when the incoming system prompt is set and non-empty, the
request handed to the handler carries the original prompt verbatim, a
blank-line separator, then the rendered skills section. -/
theorem skills_prompt_appends (m : SkillsMiddleware) (request : ModelRequest) (p : String)
    (hp : request.system_prompt = some p) (hne : p ≠ "") :
    ((m.wrap_model_call request).2).system_prompt =
      some (p ++ "\n\n" ++ m.skills_section (request.skills_metadata.getD [])) := by
  simp [SkillsMiddleware.wrap_model_call, hp, hne]

/-- Witness for C3 at a concrete middleware, prompt and catalog. -/
theorem skills_prompt_appends_witness :
    ((SkillsMiddleware.wrap_model_call
        ⟨"/home/u/.deepagents/agent/skills", "agent", some "/proj/.deepagents/skills", "agent", 0⟩
        ⟨some "You are a helpful assistant.",
         some [⟨"web-research", "Search the web", "/home/u/skills/web-research/SKILL.md", Source.user⟩],
         ["hi"]⟩).2).system_prompt =
      some ("You are a helpful assistant." ++ "\n\n" ++
        (⟨"/home/u/.deepagents/agent/skills", "agent", some "/proj/.deepagents/skills", "agent", 0⟩
            : SkillsMiddleware).skills_section
          ((some [⟨"web-research", "Search the web", "/home/u/skills/web-research/SKILL.md", Source.user⟩]
              : Option (List SkillMetadata)).getD [])) :=
  skills_prompt_appends _ _ "You are a helpful assistant." rfl (by decide)

/-- Claim C4: the rendered skills section and the outgoing system prompt are
functions of the cached catalog, the incoming prompt and the static
configuration alone — two calls on possibly different instances (different
`call_count`, `agent_name`) and different message payloads agree, and the
middleware touches nothing in the request beyond the system prompt. -/
theorem skills_render_deterministic (m1 m2 : SkillsMiddleware) (req1 req2 : ModelRequest)
    (hid : m1.assistant_id = m2.assistant_id)
    (hproj : m1.project_skills_dir = m2.project_skills_dir)
    (hstate : req1.skills_metadata = req2.skills_metadata)
    (hprompt : req1.system_prompt = req2.system_prompt) :
    (∀ skills, m1.skills_section skills = m2.skills_section skills) ∧
    ((m1.wrap_model_call req1).2).system_prompt
      = ((m2.wrap_model_call req2).2).system_prompt ∧
    ((m1.wrap_model_call req1).2).messages = req1.messages ∧
    ((m1.wrap_model_call req1).2).skills_metadata = req1.skills_metadata := by
  obtain ⟨sd1, id1, pr1, an1, cc1⟩ := m1
  obtain ⟨sd2, id2, pr2, an2, cc2⟩ := m2
  obtain ⟨sp1, md1, ms1⟩ := req1
  obtain ⟨sp2, md2, ms2⟩ := req2
  simp only at hid hproj hstate hprompt
  subst hid
  subst hproj
  subst hstate
  subst hprompt
  exact ⟨fun skills => rfl, rfl, rfl, rfl⟩

/-- Witness for C4: two instances differing in `agent_name` and
`call_count`, two requests differing in messages. -/
theorem skills_render_deterministic_witness :
    (∀ skills, (⟨"/s", "agent", some "/p", "m1", 0⟩ : SkillsMiddleware).skills_section skills
        = (⟨"/s", "agent", some "/p", "m2", 7⟩ : SkillsMiddleware).skills_section skills) ∧
    ((SkillsMiddleware.wrap_model_call ⟨"/s", "agent", some "/p", "m1", 0⟩
        ⟨some "sys", some [], ["a"]⟩).2).system_prompt
      = ((SkillsMiddleware.wrap_model_call ⟨"/s", "agent", some "/p", "m2", 7⟩
          ⟨some "sys", some [], ["b"]⟩).2).system_prompt ∧
    ((SkillsMiddleware.wrap_model_call ⟨"/s", "agent", some "/p", "m1", 0⟩
        ⟨some "sys", some [], ["a"]⟩).2).messages = ["a"] ∧
    ((SkillsMiddleware.wrap_model_call ⟨"/s", "agent", some "/p", "m1", 0⟩
        ⟨some "sys", some [], ["a"]⟩).2).skills_metadata = some [] :=
  skills_render_deterministic ⟨"/s", "agent", some "/p", "m1", 0⟩
    ⟨"/s", "agent", some "/p", "m2", 7⟩
    ⟨some "sys", some [], ["a"]⟩ ⟨some "sys", some [], ["b"]⟩ rfl rfl rfl rfl

/-- Claim C5 (code bug): on a response whose `result` list is empty, the
gating hook does not pass the response through — `response.result[0]` raises
`IndexError` (modelled by `none`), in both the `OPEN` and `CLOSED` states. -/
theorem noSkills_wrap_raises_on_empty_result :
    NoSkillsMiddleware.wrap_model_call ⟨"extractor", 0, false⟩ ⟨[]⟩ = none ∧
    NoSkillsMiddleware.wrap_model_call ⟨"extractor", 3, true⟩ ⟨[]⟩ = none :=
  ⟨rfl, rfl⟩

/-- Claim C6: once `CLOSED`, any number of subsequent well-formed responses,
regardless of content, yield empty head tool-call lists while the textual
content of every message is preserved. -/
theorem noSkills_closed_idempotent (self : NoSkillsMiddleware)
    (hclosed : self.DONE_WRITE_FILE = true)
    (rs : List ModelResponse) (hwf : ∀ r ∈ rs, r.result ≠ []) :
    self.run rs = some (rs.map fun r => (true, clearFirstToolCalls r)) ∧
    ∀ r ∈ rs,
      (clearFirstToolCalls r).result.map Message.content = r.result.map Message.content ∧
      (clearFirstToolCalls r).result.head?.map Message.tool_calls = some [] ∧
      (clearFirstToolCalls r).result.length = r.result.length := by
  refine ⟨run_closed self hclosed rs hwf, ?_⟩
  intro r hr
  obtain ⟨result⟩ := r
  cases result with
  | nil => exact absurd rfl (hwf ⟨[]⟩ hr)
  | cons first rest => simp [clearFirstToolCalls]

/-- Witness for C6: a closed instance run over two responses. -/
theorem noSkills_closed_idempotent_witness :
    NoSkillsMiddleware.run ⟨"extractor", 7, true⟩
        [⟨[⟨"a", [⟨some "read_file"⟩, ⟨some "write_file"⟩]⟩]⟩, ⟨[⟨"b", []⟩]⟩]
      = some [(true, clearFirstToolCalls ⟨[⟨"a", [⟨some "read_file"⟩, ⟨some "write_file"⟩]⟩]⟩),
              (true, clearFirstToolCalls ⟨[⟨"b", []⟩]⟩)] :=
  (noSkills_closed_idempotent ⟨"extractor", 7, true⟩ rfl _ (by decide)).1

/-- Claim C7: a missing `skills_metadata` key or an empty catalog is treated
as the empty catalog, the rendered section is still non-empty, and the
empty-catalog listing names the configured user directory location and, when
configured, the project directory location. -/
theorem skills_missing_key_empty_catalog (m : SkillsMiddleware) (request : ModelRequest)
    (h : request.skills_metadata = none ∨ request.skills_metadata = some []) :
    ((m.wrap_model_call request).2).system_prompt
      = ((m.wrap_model_call { request with skills_metadata := some [] }).2).system_prompt
    ∧ m.skills_section (request.skills_metadata.getD []) ≠ ""
    ∧ (∃ a b, m.format_skills_list [] = a ++ (m.user_skills_display ++ b))
    ∧ ∀ d, m.project_skills_dir = some d →
        ∃ a b, m.format_skills_list [] = a ++ (d ++ b) := by
  have hget : request.skills_metadata.getD [] = [] := by
    rcases h with h | h <;> simp [h]
  refine ⟨?_, ?_, ?_, ?_⟩
  · simp [SkillsMiddleware.wrap_model_call, hget]
  · intro hc
    have hlen := congrArg String.length hc
    have hpre : 0 < SKILLS_SYSTEM_PROMPT_pre.length := by decide
    simp [SkillsMiddleware.skills_section, String.length_append] at hlen
    omega
  · cases hpd : m.project_skills_dir with
    | none =>
      refine ⟨"(No skills available yet. You can create skills in ", "/)", ?_⟩
      simp [SkillsMiddleware.format_skills_list, hpd, intercalate_singleton,
        String.append_assoc]
    | some d =>
      refine ⟨"(No skills available yet. You can create skills in ",
        "/ or " ++ d ++ "/)", ?_⟩
      simp [SkillsMiddleware.format_skills_list, hpd, intercalate_pair,
        String.append_assoc]
  · intro d hpd
    refine ⟨"(No skills available yet. You can create skills in "
      ++ m.user_skills_display ++ "/ or ", "/)", ?_⟩
    simp [SkillsMiddleware.format_skills_list, hpd, intercalate_pair,
      String.append_assoc]

/-- Witness for C7: a request with the `skills_metadata` key absent. -/
theorem skills_missing_key_empty_catalog_witness :
    ((SkillsMiddleware.wrap_model_call ⟨"/s", "agent", some "/proj", "agent", 0⟩
        ⟨some "sys", none, []⟩).2).system_prompt
      = ((SkillsMiddleware.wrap_model_call ⟨"/s", "agent", some "/proj", "agent", 0⟩
          ⟨some "sys", some [], []⟩).2).system_prompt
    ∧ (⟨"/s", "agent", some "/proj", "agent", 0⟩ : SkillsMiddleware).skills_section
        ((none : Option (List SkillMetadata)).getD []) ≠ ""
    ∧ (∃ a b, (⟨"/s", "agent", some "/proj", "agent", 0⟩ : SkillsMiddleware).format_skills_list []
        = a ++ ((⟨"/s", "agent", some "/proj", "agent", 0⟩ : SkillsMiddleware).user_skills_display ++ b))
    ∧ ∀ d, (⟨"/s", "agent", some "/proj", "agent", 0⟩ : SkillsMiddleware).project_skills_dir = some d →
        ∃ a b, (⟨"/s", "agent", some "/proj", "agent", 0⟩ : SkillsMiddleware).format_skills_list []
          = a ++ (d ++ b) :=
  skills_missing_key_empty_catalog ⟨"/s", "agent", some "/proj", "agent", 0⟩
    ⟨some "sys", none, []⟩ (Or.inl rfl)

/-- Claim C8: for a non-empty catalog the rendered skills list equals the
spec's rendering rule — a labeled user group first, a labeled project group
second, each entry showing name, description and path, catalog order
preserved within each group. -/
theorem format_matches_spec_rendering (m : SkillsMiddleware) (skills : List SkillMetadata)
    (hne : skills ≠ []) :
    m.format_skills_list skills = renderSkillsListSpec skills := by
  have hfilter : skills.filter (not ∘ fun s => s.source == Source.user)
      = skills.filter (fun s => s.source == Source.project) := by
    apply List.filter_congr
    intro a _
    rcases ha : a.source with _ | _ <;> simp [Function.comp, ha]
    all_goals decide
  have hne' : skills.isEmpty = false := by simpa using hne
  simp only [SkillsMiddleware.format_skills_list, renderSkillsListSpec, hne',
    Bool.false_eq_true, if_false, List.partition_eq_filter_filter, hfilter]
  by_cases hu : skills.filter (fun s => s.source == Source.user) = []
  · by_cases hp : skills.filter (fun s => s.source == Source.project) = []
    · rw [hu, hp]
      simp
    · have hpb : (skills.filter (fun s => s.source == Source.project)).isEmpty = false := by
        simpa using hp
      rw [hu]
      simp [hpb, hp]
  · have hub : (skills.filter (fun s => s.source == Source.user)).isEmpty = false := by
      simpa using hu
    by_cases hp : skills.filter (fun s => s.source == Source.project) = []
    · rw [hp]
      simp [hub, hu]
    · have hpb : (skills.filter (fun s => s.source == Source.project)).isEmpty = false := by
        simpa using hp
      simp [hub, hu, hpb, hp]

/-- Witness for C8: a two-entry catalog with one skill per tier. -/
theorem format_matches_spec_rendering_witness :
    (⟨"/s", "agent", none, "agent", 0⟩ : SkillsMiddleware).format_skills_list
        [⟨"A", "dA", "/pa", Source.user⟩, ⟨"B", "dB", "/pb", Source.project⟩]
      = renderSkillsListSpec
        [⟨"A", "dA", "/pa", Source.user⟩, ⟨"B", "dB", "/pb", Source.project⟩] :=
  format_matches_spec_rendering ⟨"/s", "agent", none, "agent", 0⟩ _ (by decide)

/-- Claim C9: when the incoming system prompt is unset or the empty string,
the outgoing system prompt is exactly the rendered skills section, with no
separator prepended. -/
theorem skills_prompt_unset (m : SkillsMiddleware) (request : ModelRequest)
    (h : request.system_prompt = none ∨ request.system_prompt = some "") :
    ((m.wrap_model_call request).2).system_prompt =
      some (m.skills_section (request.skills_metadata.getD [])) := by
  rcases h with h | h <;> simp [SkillsMiddleware.wrap_model_call, h]

/-- Witness for C9: a request with no system prompt. -/
theorem skills_prompt_unset_witness :
    ((SkillsMiddleware.wrap_model_call ⟨"/s", "agent", none, "agent", 0⟩
        ⟨none, some [], []⟩).2).system_prompt =
      some ((⟨"/s", "agent", none, "agent", 0⟩ : SkillsMiddleware).skills_section
        ((some ([] : List SkillMetadata)).getD [])) :=
  skills_prompt_unset ⟨"/s", "agent", none, "agent", 0⟩ ⟨none, some [], []⟩ (Or.inl rfl)

/-- Claim C10: in the `CLOSED` state only the first `result` element's
tool-call list is cleared — later elements are returned intact — and the
trigger check reads only the first element, so the resulting flag does not
depend on the tail of the `result` list. -/
theorem noSkills_clears_only_first_message (self : NoSkillsMiddleware)
    (m : Message) (rest : List Message)
    (hclosed : self.DONE_WRITE_FILE = true) :
    self.wrap_model_call ⟨m :: rest⟩ =
      some ({ self with call_count := self.call_count + 1 },
            ⟨{ m with tool_calls := [] } :: rest⟩) ∧
    ∀ (self2 : NoSkillsMiddleware) (rest2 : List Message),
      (self2.wrap_model_call ⟨m :: rest⟩).map (fun x => x.1.DONE_WRITE_FILE)
        = (self2.wrap_model_call ⟨m :: rest2⟩).map (fun x => x.1.DONE_WRITE_FILE) := by
  constructor
  · rw [wrap_closed self ⟨m :: rest⟩ hclosed (by simp)]
    rfl
  · intro self2 rest2
    simp [NoSkillsMiddleware.wrap_model_call]

/-- Witness for C10: a closed instance and a two-message response; the
second message's tool call survives. -/
theorem noSkills_clears_only_first_message_witness :
    NoSkillsMiddleware.wrap_model_call ⟨"extractor", 2, true⟩
        ⟨[⟨"a", [⟨some "read_file"⟩]⟩, ⟨"b", [⟨some "write_file"⟩]⟩]⟩ =
      some (⟨"extractor", 3, true⟩,
            ⟨[⟨"a", []⟩, ⟨"b", [⟨some "write_file"⟩]⟩]⟩) :=
  (noSkills_clears_only_first_message ⟨"extractor", 2, true⟩
    ⟨"a", [⟨some "read_file"⟩]⟩ [⟨"b", [⟨some "write_file"⟩]⟩] rfl).1
